import Mathlib

/-!
Shallow embedding of the indicator pipeline of
`src/advanced_stock_dashboard.py` (class `AdvancedStockDashboard`,
methods `calculate_technical_indicators` and `calculate_returns`, and the
summary statistics of `show_individual_analysis`).

Floating-point numbers are modelled by exact rationals; the IEEE special
values that the pandas code can produce (NaN from missing data or `0/0`,
`+inf`/`-inf` from division by zero) are modelled explicitly: columns that
can only be "a number or NaN" are `List (Option ℚ)` (`none` = NaN), and the
RSI chain, where infinities arise, uses the type `PF` below.  Rolling
windows, `ewm`, `pct_change`, `cumprod`, `cummax` and the summary statistics
are translated operation by operation from the source.
-/

namespace StockDashboard

/-- A pandas float cell for the RSI chain: NaN, `+inf`, `-inf`, or a finite
value (modelled as an exact rational). -/
inductive PF where
  | nan : PF
  | pinf : PF
  | ninf : PF
  | fin : ℚ → PF
deriving DecidableEq

/-- IEEE negation on `PF`. -/
def PF.neg : PF → PF
  | nan => nan
  | pinf => ninf
  | ninf => pinf
  | fin a => fin (-a)

/-- IEEE addition on `PF` (NaN absorbs; opposite infinities give NaN). -/
def PF.add : PF → PF → PF
  | nan, _ => nan
  | _, nan => nan
  | pinf, ninf => nan
  | ninf, pinf => nan
  | pinf, _ => pinf
  | _, pinf => pinf
  | ninf, _ => ninf
  | _, ninf => ninf
  | fin a, fin b => fin (a + b)

/-- IEEE subtraction on `PF`. -/
def PF.sub (x y : PF) : PF := x.add y.neg

/-- IEEE division on `PF`: finite/0 is a signed infinity, 0/0 is NaN,
finite/inf is 0, inf/inf is NaN.  (Signed zeros are not modelled; no signed
zero arises in the pipeline.) -/
def PF.div : PF → PF → PF
  | nan, _ => nan
  | _, nan => nan
  | pinf, pinf => nan
  | pinf, ninf => nan
  | ninf, pinf => nan
  | ninf, ninf => nan
  | pinf, fin b => if b < 0 then ninf else pinf
  | ninf, fin b => if b < 0 then pinf else ninf
  | fin _, pinf => fin 0
  | fin _, ninf => fin 0
  | fin a, fin b =>
      if b = 0 then (if a = 0 then nan else if 0 < a then pinf else ninf)
      else fin (a / b)

/-- One OHLCV dataframe as produced by `get_stock_data`: a date index plus
the five value columns, all of the same length (one entry per bar). -/
structure Bars where
  date : List ℕ
  open_price : List ℚ
  high_price : List ℚ
  low_price : List ℚ
  close_price : List ℚ
  volume : List ℚ

/-- `Series.rolling(window=w).mean()` with the default
`min_periods = w` on a NaN-free column: NaN (`none`) until `w` observations
exist, then the mean of the trailing `w` values. -/
def rollingMean (w : ℕ) (xs : List ℚ) : List (Option ℚ) :=
  (List.range xs.length).map fun i =>
    if i + 1 < w then none
    else some (((xs.drop (i + 1 - w)).take w).sum / (w : ℚ))

/-- `Series.rolling(window=w).std()` squared, i.e. the rolling sample
variance (pandas default `ddof=1`), kept as an exact rational; the band
columns apply `Real.sqrt` to it. -/
def rollingVariance (w : ℕ) (xs : List ℚ) : List (Option ℚ) :=
  (List.range xs.length).map fun i =>
    if i + 1 < w then none
    else
      let win := (xs.drop (i + 1 - w)).take w
      some ((win.map fun x => (x - win.sum / (w : ℚ)) ^ 2).sum / ((w : ℚ) - 1))

/-- Accumulator loop of pandas `ewm(span).mean()` with the default
`adjust=True`: pandas maintains a weighted numerator and denominator,
decaying both by `g = 1 - α` at each step, and emits their quotient. -/
def ewmGo (g : ℚ) (num den : ℚ) : List ℚ → List ℚ
  | [] => []
  | x :: xs => ((g * num + x) / (g * den + 1)) :: ewmGo g (g * num + x) (g * den + 1) xs

/-- `Series.ewm(span=span).mean()` (defaults: `adjust=True`,
`min_periods=0`) on a NaN-free column; `α = 2/(span+1)`. -/
def ewmMean (span : ℕ) (xs : List ℚ) : List ℚ :=
  ewmGo (1 - 2 / ((span : ℚ) + 1)) 0 0 xs

/-- Tail loop of `Series.diff()`: successive differences against the
previous element. -/
def diffGo (p : ℚ) : List ℚ → List (Option ℚ)
  | [] => []
  | y :: ys => some (y - p) :: diffGo y ys

/-- `delta = df['close_price'].diff()`: NaN at position 0, then
`close[i] - close[i-1]`. -/
def diff : List ℚ → List (Option ℚ)
  | [] => []
  | x :: rest => none :: diffGo x rest

/-- `delta.where(delta > 0, 0)`: keeps positive deltas, replaces everything
else by 0.  `NaN > 0` is false, so the leading NaN also becomes 0. -/
def gains (delta : List (Option ℚ)) : List ℚ :=
  delta.map fun d =>
    match d with
    | some x => if 0 < x then x else 0
    | none => 0

/-- `-delta.where(delta < 0, 0)`: keeps negative deltas (NaN, like
non-negative values, is replaced by 0) and negates, giving loss magnitudes. -/
def losses (delta : List (Option ℚ)) : List ℚ :=
  delta.map fun d =>
    match d with
    | some x => if x < 0 then -x else 0
    | none => 0

/-- `gain = (delta.where(delta > 0, 0)).rolling(window=14).mean()`. -/
def avgGain (closes : List ℚ) : List (Option ℚ) :=
  rollingMean 14 (gains (diff closes))

/-- `loss = (-delta.where(delta < 0, 0)).rolling(window=14).mean()`. -/
def avgLoss (closes : List ℚ) : List (Option ℚ) :=
  rollingMean 14 (losses (diff closes))

/-- Elementwise float division of two number-or-NaN cells, landing in `PF`
because a zero denominator produces an infinity (or NaN for `0/0`). -/
def cellDiv : Option ℚ → Option ℚ → PF
  | some a, some b =>
      if b = 0 then (if a = 0 then PF.nan else if 0 < a then PF.pinf else PF.ninf)
      else PF.fin (a / b)
  | _, _ => PF.nan

/-- `rs = gain / loss` (elementwise). -/
def rsColumn (closes : List ℚ) : List PF :=
  List.zipWith cellDiv (avgGain closes) (avgLoss closes)

/-- `df['RSI'] = 100 - (100 / (1 + rs))` with IEEE arithmetic on each cell. -/
def rsiColumn (closes : List ℚ) : List PF :=
  (rsColumn closes).map fun r =>
    (PF.fin 100).sub ((PF.fin 100).div ((PF.fin 1).add r))

/-- Elementwise `BB_Middle + bb_std * 2` (NaN propagates). -/
def bbCombine (sign : ℝ) : Option ℚ → Option ℝ → Option ℝ
  | some m, some s => some ((m : ℝ) + s * 2 * sign)
  | _, _ => none

/-- `bb_std = df['close_price'].rolling(window=20).std()`: the square root
of the rolling sample variance. -/
noncomputable def bbStd (closes : List ℚ) : List (Option ℝ) :=
  (rollingVariance 20 closes).map (Option.map fun v : ℚ => Real.sqrt (v : ℝ))

/-- Output frame of `calculate_technical_indicators`: the copied input
columns plus the indicator columns, in the order the code assigns them. -/
structure TechFrame where
  date : List ℕ
  open_price : List ℚ
  high_price : List ℚ
  low_price : List ℚ
  close_price : List ℚ
  volume : List ℚ
  SMA_20 : List (Option ℚ)
  SMA_50 : List (Option ℚ)
  SMA_200 : List (Option ℚ)
  EMA_12 : List ℚ
  EMA_26 : List ℚ
  MACD : List ℚ
  MACD_Signal : List ℚ
  MACD_Histogram : List ℚ
  RSI : List PF
  BB_Middle : List (Option ℚ)
  BB_Upper : List (Option ℝ)
  BB_Lower : List (Option ℝ)
  Volume_SMA : List (Option ℚ)

/-- `AdvancedStockDashboard.calculate_technical_indicators`.  The code
first does `df = df.copy()` (so the caller's frame is never mutated; the
embedding is pure by construction) and then assigns each indicator column;
the `if df.empty: return df` fast path returns the same base columns with
no indicator columns, which coincides with this definition because every
derived column of an empty input is the empty list. -/
noncomputable def calculate_technical_indicators (df : Bars) : TechFrame :=
  { date := df.date
    open_price := df.open_price
    high_price := df.high_price
    low_price := df.low_price
    close_price := df.close_price
    volume := df.volume
    SMA_20 := rollingMean 20 df.close_price
    SMA_50 := rollingMean 50 df.close_price
    SMA_200 := rollingMean 200 df.close_price
    EMA_12 := ewmMean 12 df.close_price
    EMA_26 := ewmMean 26 df.close_price
    MACD := List.zipWith (fun a b => a - b) (ewmMean 12 df.close_price) (ewmMean 26 df.close_price)
    MACD_Signal := ewmMean 9 (List.zipWith (fun a b => a - b) (ewmMean 12 df.close_price) (ewmMean 26 df.close_price))
    MACD_Histogram :=
      List.zipWith (fun a b => a - b)
        (List.zipWith (fun a b => a - b) (ewmMean 12 df.close_price) (ewmMean 26 df.close_price))
        (ewmMean 9 (List.zipWith (fun a b => a - b) (ewmMean 12 df.close_price) (ewmMean 26 df.close_price)))
    RSI := rsiColumn df.close_price
    BB_Middle := rollingMean 20 df.close_price
    BB_Upper := List.zipWith (bbCombine 1) (rollingMean 20 df.close_price) (bbStd df.close_price)
    BB_Lower := List.zipWith (bbCombine (-1)) (rollingMean 20 df.close_price) (bbStd df.close_price)
    Volume_SMA := rollingMean 20 df.volume }

/-- Tail loop of `Series.pct_change()`: fractional change against the
previous close.  Faithful to the float code when the previous close is
nonzero, which the data model guarantees (prices are positive). -/
def pctGo (p : ℚ) : List ℚ → List (Option ℚ)
  | [] => []
  | y :: ys => some (y / p - 1) :: pctGo y ys

/-- `df['close_price'].pct_change()`: NaN at position 0, then
`close[i]/close[i-1] - 1`. -/
def pct_change : List ℚ → List (Option ℚ)
  | [] => []
  | x :: rest => none :: pctGo x rest

/-- `Series.cumprod()` with the default `skipna=True`: NaN entries stay NaN
in place and are skipped by the running product. -/
def cumprodGo (acc : ℚ) : List (Option ℚ) → List (Option ℚ)
  | [] => []
  | none :: xs => none :: cumprodGo acc xs
  | some x :: xs => some (acc * x) :: cumprodGo (acc * x) xs

/-- Output frame of `calculate_returns`: the copied input columns plus the
two return columns. -/
structure ReturnsFrame where
  date : List ℕ
  open_price : List ℚ
  high_price : List ℚ
  low_price : List ℚ
  close_price : List ℚ
  volume : List ℚ
  Daily_Return : List (Option ℚ)
  Cumulative_Return : List (Option ℚ)

/-- `AdvancedStockDashboard.calculate_returns`:
`Daily_Return = close.pct_change()` and
`Cumulative_Return = (1 + Daily_Return).cumprod() - 1`.  As in
`calculate_technical_indicators`, `df.copy()` makes the function pure and
the empty fast path agrees with this definition. -/
def calculate_returns (df : Bars) : ReturnsFrame :=
  { date := df.date
    open_price := df.open_price
    high_price := df.high_price
    low_price := df.low_price
    close_price := df.close_price
    volume := df.volume
    Daily_Return := pct_change df.close_price
    Cumulative_Return :=
      (cumprodGo 1 ((pct_change df.close_price).map (Option.map fun r => 1 + r))).map
        (Option.map fun p => p - 1) }

/-- `Series.mean()` (skipna) of a number-or-NaN column: NaN when no value
is present. -/
def colMean (l : List (Option ℚ)) : Option ℚ :=
  let v := l.filterMap id
  if v.length = 0 then none else some (v.sum / (v.length : ℚ))

/-- `Series.std()` (skipna, default `ddof=1`) of a number-or-NaN column,
squared: the sample variance, NaN when fewer than two values are present
(pandas returns NaN there because the `ddof` denominator is zero). -/
def colVariance (l : List (Option ℚ)) : Option ℚ :=
  let v := l.filterMap id
  if v.length < 2 then none
  else some ((v.map fun x => (x - v.sum / (v.length : ℚ)) ^ 2).sum / ((v.length : ℚ) - 1))

section
open Classical

/-- `sharpe_ratio = dr.mean() / dr.std() * np.sqrt(252) if dr.std() != 0
else 0` over the `Daily_Return` column (`dr.std()` being NaN makes the
`!= 0` test succeed and the result NaN, modelled as `none`). -/
noncomputable def sharpe_ratio (dr : List (Option ℚ)) : Option ℝ :=
  match colMean dr, colVariance dr with
  | some m, some v =>
      if Real.sqrt (v : ℝ) ≠ 0 then some ((m : ℝ) / Real.sqrt (v : ℝ) * Real.sqrt 252)
      else some 0
  | _, _ => none

end

/-- Tail loop of `Series.cummax()`. -/
def cummaxGo (m : ℚ) : List ℚ → List ℚ
  | [] => []
  | x :: xs => max m x :: cummaxGo (max m x) xs

/-- `df['close_price'].cummax()`: the running maximum. -/
def cummax : List ℚ → List ℚ
  | [] => []
  | x :: xs => x :: cummaxGo x xs

/-- `(close / close.cummax()) - 1` (elementwise). -/
def drawdownCol (closes : List ℚ) : List ℚ :=
  List.zipWith (fun c m => c / m - 1) closes (cummax closes)

/-- `Series.min()`: the minimum of a (here NaN-free) column, NaN (`none`)
on an empty column. -/
def seriesMin : List ℚ → Option ℚ
  | [] => none
  | x :: xs => some (xs.foldl min x)

/-- `max_drawdown = ((close / close.cummax()) - 1).min()`. -/
def max_drawdown (closes : List ℚ) : Option ℚ :=
  seriesMin (drawdownCol closes)

/-- The product of `1 + r` over the defined (non-NaN) entries of a daily
return column. -/
def definedProd (l : List (Option ℚ)) : ℚ :=
  ((l.filterMap id).map fun r => 1 + r).prod

/-- Modelled from the amended claim: the `adjust=True` exponentially
weighted average — at position `i`, the weighted mean of `closes[0..i]`
with weights `(1-α)^(i-j)`, `α = 2/(span+1)`. -/
def ewmWeighted (span : ℕ) (xs : List ℚ) : List ℚ :=
  (List.range xs.length).map fun i =>
    (∑ j ∈ Finset.range (i + 1), (1 - 2 / ((span : ℚ) + 1)) ^ (i - j) * xs.getD j 0) /
    (∑ j ∈ Finset.range (i + 1), (1 - 2 / ((span : ℚ) + 1)) ^ (i - j))

/-- Modelled from the claim's words: the recursive exponential moving
average with smoothing factor `α = 2/(span+1)` seeded by the first close,
`EMA[0] = close[0]`, `EMA[i] = α·close[i] + (1-α)·EMA[i-1]` (this is what
pandas computes with `adjust=False`, which the code does not request). -/
def emaRecursiveGo (a p : ℚ) : List ℚ → List ℚ
  | [] => []
  | x :: xs => (a * x + (1 - a) * p) :: emaRecursiveGo a (a * x + (1 - a) * p) xs

/-- The claim's recursive EMA over a whole series. -/
def emaRecursive (span : ℕ) : List ℚ → List ℚ
  | [] => []
  | x :: rest => x :: emaRecursiveGo (2 / ((span : ℚ) + 1)) x rest

/-- The frame contract of the spec: both pipeline functions copy the six
input columns through unchanged (the code's `df.copy()` plus column
assignment; the embedding is pure, so the caller's object is never
mutated) and every derived column has exactly one row per input bar. -/
def FrameContract (df : Bars) : Prop :=
  (calculate_returns df).date = df.date ∧
  (calculate_returns df).open_price = df.open_price ∧
  (calculate_returns df).high_price = df.high_price ∧
  (calculate_returns df).low_price = df.low_price ∧
  (calculate_returns df).close_price = df.close_price ∧
  (calculate_returns df).volume = df.volume ∧
  (calculate_returns df).Daily_Return.length = df.close_price.length ∧
  (calculate_returns df).Cumulative_Return.length = df.close_price.length ∧
  (calculate_technical_indicators df).date = df.date ∧
  (calculate_technical_indicators df).open_price = df.open_price ∧
  (calculate_technical_indicators df).high_price = df.high_price ∧
  (calculate_technical_indicators df).low_price = df.low_price ∧
  (calculate_technical_indicators df).close_price = df.close_price ∧
  (calculate_technical_indicators df).volume = df.volume ∧
  (calculate_technical_indicators df).SMA_20.length = df.close_price.length ∧
  (calculate_technical_indicators df).SMA_50.length = df.close_price.length ∧
  (calculate_technical_indicators df).SMA_200.length = df.close_price.length ∧
  (calculate_technical_indicators df).EMA_12.length = df.close_price.length ∧
  (calculate_technical_indicators df).EMA_26.length = df.close_price.length ∧
  (calculate_technical_indicators df).MACD.length = df.close_price.length ∧
  (calculate_technical_indicators df).MACD_Signal.length = df.close_price.length ∧
  (calculate_technical_indicators df).MACD_Histogram.length = df.close_price.length ∧
  (calculate_technical_indicators df).RSI.length = df.close_price.length ∧
  (calculate_technical_indicators df).BB_Middle.length = df.close_price.length ∧
  (calculate_technical_indicators df).BB_Upper.length = df.close_price.length ∧
  (calculate_technical_indicators df).BB_Lower.length = df.close_price.length ∧
  (calculate_technical_indicators df).Volume_SMA.length = df.close_price.length

/-! Concrete input frames used by witnesses and counterexamples. -/

/-- A `Bars` frame whose every value column is `xs` (the indicator columns
under scrutiny only read `close_price` and `volume`). -/
def mkBars (xs : List ℚ) : Bars :=
  { date := List.range xs.length
    open_price := xs
    high_price := xs
    low_price := xs
    close_price := xs
    volume := xs }

/-- The 20-bar close series of the spec's concrete SMA scenario. -/
def demoCloses : List ℚ :=
  [10, 11, 12, 11, 10, 9, 10, 11, 12, 13, 14, 15, 16, 17, 18, 19, 20, 21, 22, 23]

/-- A strictly rising 15-bar close series (every delta is a gain). -/
def riseCloses : List ℚ :=
  [1, 2, 3, 4, 5, 6, 7, 8, 9, 10, 11, 12, 13, 14, 15]

end StockDashboard

namespace StockDashboard

/-! ## Column lengths -/

lemma rollingMean_length (w : ℕ) (xs : List ℚ) : (rollingMean w xs).length = xs.length := by
  simp [rollingMean]

lemma rollingVariance_length (w : ℕ) (xs : List ℚ) :
    (rollingVariance w xs).length = xs.length := by
  simp [rollingVariance]

lemma ewmGo_length (g : ℚ) : ∀ (xs : List ℚ) (num den : ℚ),
    (ewmGo g num den xs).length = xs.length
  | [], _, _ => rfl
  | x :: xs, num, den => by
    simp only [ewmGo, List.length_cons, ewmGo_length g xs]

lemma ewmMean_length (span : ℕ) (xs : List ℚ) : (ewmMean span xs).length = xs.length :=
  ewmGo_length _ xs 0 0

lemma diffGo_length (p : ℚ) : ∀ xs : List ℚ, (diffGo p xs).length = xs.length
  | [] => rfl
  | y :: ys => by simp only [diffGo, List.length_cons, diffGo_length y ys]

lemma diff_length : ∀ xs : List ℚ, (diff xs).length = xs.length
  | [] => rfl
  | x :: rest => by simp only [diff, List.length_cons, diffGo_length x rest]

lemma gains_length (d : List (Option ℚ)) : (gains d).length = d.length := by
  simp [gains]

lemma losses_length (d : List (Option ℚ)) : (losses d).length = d.length := by
  simp [losses]

lemma avgGain_length (closes : List ℚ) : (avgGain closes).length = closes.length := by
  simp [avgGain, rollingMean_length, gains_length, diff_length]

lemma avgLoss_length (closes : List ℚ) : (avgLoss closes).length = closes.length := by
  simp [avgLoss, rollingMean_length, losses_length, diff_length]

lemma rsColumn_length (closes : List ℚ) : (rsColumn closes).length = closes.length := by
  simp [rsColumn, List.length_zipWith, avgGain_length, avgLoss_length]

lemma rsiColumn_length (closes : List ℚ) : (rsiColumn closes).length = closes.length := by
  simp [rsiColumn, rsColumn_length]

lemma bbStd_length (closes : List ℚ) : (bbStd closes).length = closes.length := by
  simp [bbStd, rollingVariance_length]

lemma pctGo_length (p : ℚ) : ∀ xs : List ℚ, (pctGo p xs).length = xs.length
  | [] => rfl
  | y :: ys => by simp only [pctGo, List.length_cons, pctGo_length y ys]

lemma pct_change_length : ∀ xs : List ℚ, (pct_change xs).length = xs.length
  | [] => rfl
  | x :: rest => by simp only [pct_change, List.length_cons, pctGo_length x rest]

lemma cumprodGo_length : ∀ (acc : ℚ) (l : List (Option ℚ)),
    (cumprodGo acc l).length = l.length
  | _, [] => rfl
  | acc, none :: xs => by simp only [cumprodGo, List.length_cons, cumprodGo_length acc xs]
  | acc, some x :: xs => by
    simp only [cumprodGo, List.length_cons, cumprodGo_length (acc * x) xs]

/-! ## C8: shape of the output frames -/

/-- C8: on any well-formed frame (volume column as long as the close
column), `calculate_technical_indicators` and `calculate_returns` return
one output row per input bar in the input's order, leave the original bar
columns (date index and OHLCV) unchanged, and, being pure (`df.copy()`),
do not mutate the caller's frame. -/
theorem frame_shape (df : Bars) (hvol : df.volume.length = df.close_price.length) :
    FrameContract df := by
  refine ⟨rfl, rfl, rfl, rfl, rfl, rfl, ?_, ?_, rfl, rfl, rfl, rfl, rfl, rfl,
    ?_, ?_, ?_, ?_, ?_, ?_, ?_, ?_, ?_, ?_, ?_, ?_, ?_⟩ <;>
    simp [calculate_returns, calculate_technical_indicators, pct_change_length,
      cumprodGo_length, rollingMean_length, rollingVariance_length, ewmMean_length,
      rsiColumn_length, bbStd_length, List.length_zipWith, hvol]

/-- C8 witness: the contract at a concrete one-bar frame. -/
theorem frame_shape_witness : FrameContract (mkBars [100]) :=
  frame_shape (mkBars [100]) rfl

/-! ## C9: EMA of a constant series -/

lemma ewmGo_const (g c : ℚ) (hg : 0 ≤ g) : ∀ (m : ℕ) (num den : ℚ), 0 ≤ den →
    num = c * den → ewmGo g num den (List.replicate m c) = List.replicate m c
  | 0, _, _, _, _ => rfl
  | m + 1, num, den, hden, hnum => by
    have hpos : 0 < g * den + 1 := by positivity
    have hval : (g * num + c) / (g * den + 1) = c := by
      rw [hnum]
      field_simp
      ring
    rw [List.replicate_succ, ewmGo, hval,
      ewmGo_const g c hg m (g * num + c) (g * den + 1) (le_of_lt hpos) (by rw [hnum]; ring)]

/-- C9: on a non-empty bar series whose close price is the constant `c`,
the span-12 EMA column of `calculate_technical_indicators` is `c` at every
position. -/
theorem ema12_const (df : Bars) (n : ℕ) (c : ℚ) (hn : 0 < n)
    (hc : df.close_price = List.replicate n c) :
    (calculate_technical_indicators df).EMA_12 = List.replicate n c := by
  show ewmMean 12 df.close_price = List.replicate n c
  rw [hc, ewmMean]
  exact ewmGo_const _ c (by norm_num) n 0 0 le_rfl (by ring)

/-- C9 witness: the span-12 EMA of three bars constant at 100 is 100
everywhere. -/
theorem ema12_const_witness :
    (calculate_technical_indicators (mkBars (List.replicate 3 (100 : ℚ)))).EMA_12 =
      List.replicate 3 (100 : ℚ) :=
  ema12_const (mkBars (List.replicate 3 (100 : ℚ))) 3 100 (by decide) rfl

/-! ## C1: daily and cumulative returns -/

lemma pctGo_getElem? : ∀ (rest : List ℚ) (p : ℚ) (i : ℕ) (a b : ℚ),
    (p :: rest)[i]? = some a → rest[i]? = some b →
    (pctGo p rest)[i]? = some (some (b / a - 1))
  | [], _, i, _, _, _, hb => by simp at hb
  | y :: ys, p, 0, a, b, ha, hb => by
    simp only [List.getElem?_cons_zero, Option.some.injEq] at ha hb
    subst ha; subst hb
    simp [pctGo]
  | y :: ys, p, i + 1, a, b, ha, hb => by
    simp only [List.getElem?_cons_succ] at ha hb
    simpa [pctGo] using pctGo_getElem? ys y i a b ha hb

lemma cumprodGo_getElem?_some : ∀ (l : List (Option ℚ)) (acc : ℚ) (i : ℕ) (v : ℚ),
    (cumprodGo acc l)[i]? = some (some v) →
    v = acc * ((l.take (i + 1)).filterMap id).prod
  | [], _, i, _, h => by simp [cumprodGo] at h
  | none :: xs, acc, 0, v, h => by simp [cumprodGo] at h
  | none :: xs, acc, i + 1, v, h => by
    simp only [cumprodGo, List.getElem?_cons_succ] at h
    simpa using cumprodGo_getElem?_some xs acc i v h
  | some x :: xs, acc, 0, v, h => by
    simp only [cumprodGo, List.getElem?_cons_zero, Option.some.injEq] at h
    simp [← h]
  | some x :: xs, acc, i + 1, v, h => by
    simp only [cumprodGo, List.getElem?_cons_succ] at h
    rw [cumprodGo_getElem?_some xs (acc * x) i v h]
    simp [List.filterMap_cons]
    ring

lemma filterMap_id_map_optionMap (f : ℚ → ℚ) : ∀ l : List (Option ℚ),
    (l.map (Option.map f)).filterMap id = (l.filterMap id).map f
  | [] => rfl
  | none :: xs => by simp [filterMap_id_map_optionMap f xs]
  | some x :: xs => by simp [filterMap_id_map_optionMap f xs]

/-- C1 (amended): for a non-empty series of positive closes,
`calculate_returns` gives `Daily_Return[0]` undefined (NaN) and
`Daily_Return[i] = close[i]/close[i-1] - 1` for `i ≥ 1`;
`Cumulative_Return[0]` is also undefined — not 0, because
`(1 + NaN).cumprod()` keeps NaN in place — and wherever
`Cumulative_Return[i]` is defined, `1 + Cumulative_Return[i]` is the
product of `1 + Daily_Return[j]` over the defined daily returns `j ≤ i`. -/
theorem returns_spec (df : Bars) (hne : df.close_price ≠ [])
    (hpos : ∀ c ∈ df.close_price, 0 < c) :
    (calculate_returns df).Daily_Return[0]? = some none ∧
    (∀ i a b, df.close_price[i]? = some a → df.close_price[i + 1]? = some b →
      (calculate_returns df).Daily_Return[i + 1]? = some (some (b / a - 1))) ∧
    (calculate_returns df).Cumulative_Return[0]? = some none ∧
    (∀ i v, (calculate_returns df).Cumulative_Return[i]? = some (some v) →
      1 + v = definedProd ((calculate_returns df).Daily_Return.take (i + 1))) := by
  obtain ⟨c, rest, hcr⟩ : ∃ c rest, df.close_price = c :: rest := by
    cases h : df.close_price with
    | nil => exact absurd h hne
    | cons c rest => exact ⟨c, rest, rfl⟩
  have hdr : (calculate_returns df).Daily_Return = none :: pctGo c rest := by
    show pct_change df.close_price = _
    rw [hcr, pct_change]
  refine ⟨by rw [hdr]; simp, ?_, ?_, ?_⟩
  · intro i a b ha hb
    rw [hcr] at ha hb
    rw [hdr, List.getElem?_cons_succ]
    exact pctGo_getElem? rest c i a b ha (by simpa using hb)
  · show ((cumprodGo 1 ((pct_change df.close_price).map (Option.map fun r => 1 + r))).map
      (Option.map fun p => p - 1))[0]? = some none
    rw [hcr, pct_change]
    simp [cumprodGo]
  · intro i v h
    replace h : ((cumprodGo 1 ((calculate_returns df).Daily_Return.map
        (Option.map fun r => 1 + r))).map (Option.map fun p => p - 1))[i]? =
        some (some v) := h
    rw [List.getElem?_map] at h
    obtain ⟨o, ho, hov⟩ := Option.map_eq_some'.mp h
    cases o with
    | none => simp at hov
    | some p =>
      simp only [Option.map_some', Option.some.injEq] at hov
      have hp := cumprodGo_getElem?_some _ 1 i p ho
      rw [← List.map_take, filterMap_id_map_optionMap] at hp
      rw [← hov, definedProd]
      rw [one_mul] at hp
      rw [hp]
      ring

/-- C1 witness: both leading entries of the two-bar frame with closes
`[100, 110]` are the NaN marker. -/
theorem returns_spec_witness :
    (calculate_returns (mkBars [100, 110])).Daily_Return[0]? = some none ∧
    (calculate_returns (mkBars [100, 110])).Cumulative_Return[0]? = some none :=
  ⟨(returns_spec (mkBars [100, 110]) (by decide) (by decide)).1,
   (returns_spec (mkBars [100, 110]) (by decide) (by decide)).2.2.1⟩

/-- C1 counterexample: on closes `[100, 110]` the cumulative return at
position 0 is the NaN marker, not the claimed exact 0. -/
theorem returns_cum0_cex :
    (calculate_returns (mkBars [100, 110])).Cumulative_Return[0]? = some none ∧
    (calculate_returns (mkBars [100, 110])).Cumulative_Return[0]? ≠ some (some 0) := by
  constructor
  · rfl
  · intro h
    exact Option.noConfusion (Option.some.inj h)

/-! ## C2: what the EMA columns actually are -/

lemma ewmGo_getElem? (g : ℚ) : ∀ (xs : List ℚ) (num den : ℚ) (k : ℕ), k < xs.length →
    (ewmGo g num den xs)[k]? = some
      ((g ^ (k + 1) * num + ∑ j ∈ Finset.range (k + 1), g ^ (k - j) * xs.getD j 0) /
       (g ^ (k + 1) * den + ∑ j ∈ Finset.range (k + 1), g ^ (k - j)))
  | [], _, _, k, hk => by simp at hk
  | x :: xs, num, den, 0, hk => by
    simp [ewmGo, pow_one]
  | x :: xs, num, den, k + 1, hk => by
    rw [ewmGo, List.getElem?_cons_succ,
      ewmGo_getElem? g xs (g * num + x) (g * den + 1) k (by simpa using hk)]
    have hnum : g ^ (k + 1) * (g * num + x) + ∑ j ∈ Finset.range (k + 1), g ^ (k - j) * xs.getD j 0
        = g ^ (k + 1 + 1) * num + ∑ j ∈ Finset.range (k + 1 + 1), g ^ (k + 1 - j) * (x :: xs).getD j 0 := by
      rw [Finset.sum_range_succ' fun j => g ^ (k + 1 - j) * (x :: xs).getD j 0]
      simp only [List.getD_cons_succ, List.getD_cons_zero, Nat.succ_sub_succ, Nat.sub_zero]
      ring
    have hden : g ^ (k + 1) * (g * den + 1) + ∑ j ∈ Finset.range (k + 1), g ^ (k - j)
        = g ^ (k + 1 + 1) * den + ∑ j ∈ Finset.range (k + 1 + 1), g ^ (k + 1 - j) := by
      rw [Finset.sum_range_succ' fun j => g ^ (k + 1 - j)]
      simp only [Nat.succ_sub_succ, Nat.sub_zero]
      ring
    rw [hnum, hden]

lemma ewmMean_eq_weighted (span : ℕ) (xs : List ℚ) :
    ewmMean span xs = ewmWeighted span xs := by
  apply List.ext_getElem?
  intro k
  by_cases hk : k < xs.length
  · rw [ewmMean, ewmGo_getElem? _ xs 0 0 k hk, ewmWeighted, List.getElem?_map,
      List.getElem?_range hk]
    simp
  · rw [List.getElem?_eq_none (by rw [ewmMean_length]; omega),
      List.getElem?_eq_none (by rw [ewmWeighted, List.length_map, List.length_range]; omega)]

/-- C2 (amended): the EMA columns of `calculate_technical_indicators` are
total (defined from the first bar onward, one value per input bar) and
equal pandas' default `adjust=True` exponentially weighted average of the
closes — the weighted mean with weights `(1-α)^(i-j)`, `α = 2/(span+1)` —
whose position-0 value is the first close; they are NOT the claim's
recursive update `EMA[i] = α·close[i] + (1-α)·EMA[i-1]`. -/
theorem ema_adjust_spec (df : Bars) :
    (calculate_technical_indicators df).EMA_12 = ewmWeighted 12 df.close_price ∧
    (calculate_technical_indicators df).EMA_26 = ewmWeighted 26 df.close_price ∧
    (calculate_technical_indicators df).EMA_12.length = df.close_price.length ∧
    (calculate_technical_indicators df).EMA_26.length = df.close_price.length ∧
    (calculate_technical_indicators df).EMA_12.head? = df.close_price.head? := by
  refine ⟨ewmMean_eq_weighted 12 df.close_price, ewmMean_eq_weighted 26 df.close_price,
    ewmMean_length 12 df.close_price, ewmMean_length 26 df.close_price, ?_⟩
  show (ewmMean 12 df.close_price).head? = df.close_price.head?
  cases df.close_price with
  | nil => rfl
  | cons x rest => simp [ewmMean, ewmGo]

/-- C2 counterexample: on the two-bar series `[100, 200]` the code's
span-12 EMA at position 1 is `925/6 ≈ 154.17` (the adjusted weighted
average), while the claimed recursion gives `1500/13 ≈ 115.38`. -/
theorem ema_recursive_cex :
    (calculate_technical_indicators (mkBars [100, 200])).EMA_12 = [100, 925 / 6] ∧
    emaRecursive 12 [100, 200] = [100, 1500 / 13] ∧
    (calculate_technical_indicators (mkBars [100, 200])).EMA_12 ≠
      emaRecursive 12 [100, 200] := by
  have h1 : (calculate_technical_indicators (mkBars [100, 200])).EMA_12 = [100, 925 / 6] := by
    norm_num [calculate_technical_indicators, mkBars, ewmMean, ewmGo]
  have h2 : emaRecursive 12 [100, 200] = [100, 1500 / 13] := by
    norm_num [emaRecursive, emaRecursiveGo]
  refine ⟨h1, h2, ?_⟩
  rw [h1, h2]
  intro h
  have := (List.cons.injEq _ _ _ _).mp h
  have h925 : (925 / 6 : ℚ) = 1500 / 13 := by
    have := (List.cons.injEq _ _ _ _).mp this.2
    exact this.1
  norm_num at h925

/-! ## C3 and C4: RSI at a zero average loss, and RSI bounds -/

/-- C3: wherever the 14-bar average gain and average loss are both
defined, with the average loss exactly 0 and the average gain positive,
the RSI cell of `calculate_technical_indicators` is exactly 100: the
division `gain/loss` yields `+inf` without raising, and
`100 - 100/(1 + inf) = 100`. -/
theorem rsi_avgLoss_zero (df : Bars) (i : ℕ) (g : ℚ)
    (hg : (avgGain df.close_price)[i]? = some (some g))
    (hl : (avgLoss df.close_price)[i]? = some (some 0))
    (hgpos : 0 < g) :
    (calculate_technical_indicators df).RSI[i]? = some (PF.fin 100) := by
  show (rsiColumn df.close_price)[i]? = some (PF.fin 100)
  rw [rsiColumn, List.getElem?_map, rsColumn, List.getElem?_zipWith, hg, hl]
  simp [cellDiv, hgpos.ne', hgpos, PF.add, PF.div, PF.sub, PF.neg]

/-- C3 witness: on the strictly rising 15-bar series, position 13 has
average gain `13/14 > 0`, average loss 0, and RSI exactly 100. -/
theorem rsi_avgLoss_zero_witness :
    (calculate_technical_indicators (mkBars riseCloses)).RSI[13]? = some (PF.fin 100) :=
  rsi_avgLoss_zero (mkBars riseCloses) 13 (13 / 14)
    (by norm_num [mkBars, avgGain, rollingMean, gains, diff, diffGo, riseCloses, List.range_succ])
    (by norm_num [mkBars, avgLoss, rollingMean, losses, diff, diffGo, riseCloses, List.range_succ])
    (by norm_num)

lemma gains_nonneg (d : List (Option ℚ)) : ∀ x ∈ gains d, 0 ≤ x := by
  intro x hx
  rw [gains] at hx
  obtain ⟨o, _, ho⟩ := List.mem_map.mp hx
  cases o with
  | none => rw [← ho]
  | some q =>
    rw [← ho]
    show (0 : ℚ) ≤ if 0 < q then q else 0
    split_ifs with hq
    · exact le_of_lt hq
    · exact le_refl 0

lemma losses_nonneg (d : List (Option ℚ)) : ∀ x ∈ losses d, 0 ≤ x := by
  intro x hx
  rw [losses] at hx
  obtain ⟨o, _, ho⟩ := List.mem_map.mp hx
  cases o with
  | none => rw [← ho]
  | some q =>
    rw [← ho]
    show (0 : ℚ) ≤ if q < 0 then -q else 0
    split_ifs with hq
    · rw [neg_nonneg]
      exact le_of_lt hq
    · exact le_refl 0

lemma rollingMean_nonneg (w : ℕ) (xs : List ℚ) (hxs : ∀ x ∈ xs, 0 ≤ x) (i : ℕ) (q : ℚ)
    (h : (rollingMean w xs)[i]? = some (some q)) : 0 ≤ q := by
  have hi : i < xs.length := by
    by_contra hi
    rw [List.getElem?_eq_none (by rw [rollingMean_length]; omega)] at h
    exact Option.noConfusion h
  rw [rollingMean, List.getElem?_map, List.getElem?_range hi] at h
  simp only [Option.map_some'] at h
  split at h
  · simp at h
  · rw [Option.some.injEq, Option.some.injEq] at h
    rw [← h]
    apply div_nonneg
    · apply List.sum_nonneg
      intro x hx
      exact hxs x (List.mem_of_mem_drop (List.mem_of_mem_take hx))
    · positivity

/-- C4: every defined (non-NaN, finite) RSI cell of
`calculate_technical_indicators` lies in the closed interval `[0, 100]`. -/
theorem rsi_bounded (df : Bars) (i : ℕ) (x : ℚ)
    (h : (calculate_technical_indicators df).RSI[i]? = some (PF.fin x)) :
    0 ≤ x ∧ x ≤ 100 := by
  replace h : (rsiColumn df.close_price)[i]? = some (PF.fin x) := h
  rw [rsiColumn, List.getElem?_map] at h
  obtain ⟨r, hr, hrx⟩ := Option.map_eq_some'.mp h
  rw [rsColumn, List.getElem?_zipWith] at hr
  cases hgo : (avgGain df.close_price)[i]? with
  | none => rw [hgo] at hr; simp at hr
  | some og =>
  cases hlo : (avgLoss df.close_price)[i]? with
  | none => rw [hgo, hlo] at hr; simp at hr
  | some ol =>
  rw [hgo, hlo, Option.some.injEq] at hr
  subst hr
  cases og with
  | none => simp [cellDiv, PF.add, PF.div, PF.sub, PF.neg] at hrx
  | some a =>
  cases ol with
  | none => simp [cellDiv, PF.add, PF.div, PF.sub, PF.neg] at hrx
  | some b =>
  have ha : 0 ≤ a := rollingMean_nonneg 14 _ (gains_nonneg _) i a hgo
  have hb : 0 ≤ b := rollingMean_nonneg 14 _ (losses_nonneg _) i b hlo
  by_cases hb0 : b = 0
  · by_cases ha0 : a = 0
    · simp [cellDiv, hb0, ha0, PF.add, PF.div, PF.sub, PF.neg] at hrx
    · have hapos : 0 < a := lt_of_le_of_ne ha (Ne.symm ha0)
      rw [show cellDiv (some a) (some b) = PF.pinf by
        simp [cellDiv, hb0, ha0, hapos]] at hrx
      rw [show (PF.fin 100).sub ((PF.fin 100).div ((PF.fin 1).add PF.pinf)) = PF.fin 100 by
        simp [PF.add, PF.div, PF.sub, PF.neg]] at hrx
      rw [PF.fin.injEq] at hrx
      rw [← hrx]
      norm_num
  · have hq : 0 ≤ a / b := div_nonneg ha hb
    have h1q : (0 : ℚ) < 1 + a / b := by linarith
    rw [show cellDiv (some a) (some b) = PF.fin (a / b) by simp [cellDiv, hb0]] at hrx
    rw [show (PF.fin 100).sub ((PF.fin 100).div ((PF.fin 1).add (PF.fin (a / b)))) =
        PF.fin (100 - 100 / (1 + a / b)) by
      simp [PF.add, PF.div, PF.sub, PF.neg, h1q.ne']
      ring] at hrx
    rw [PF.fin.injEq] at hrx
    have hple : 100 / (1 + a / b) ≤ 100 := by
      apply div_le_self (by norm_num)
      linarith
    have hppos : 0 < 100 / (1 + a / b) := by positivity
    constructor
    · rw [← hrx]; linarith
    · rw [← hrx]; linarith

/-- C4 witness: the defined RSI cell at position 13 of the rising series
has value 100, which the theorem places in `[0, 100]`. -/
theorem rsi_bounded_witness : (0 : ℚ) ≤ 100 ∧ (100 : ℚ) ≤ 100 :=
  rsi_bounded (mkBars riseCloses) 13 100
    (by norm_num [calculate_technical_indicators, mkBars, rsiColumn, rsColumn, cellDiv,
      avgGain, avgLoss, rollingMean, gains, losses, diff, diffGo, riseCloses,
      List.range_succ, PF.add, PF.div, PF.sub, PF.neg])

/-! ## C5: windows longer than the series -/

lemma mem_zipWith_decomp {α β γ : Type} (f : α → β → γ) :
    ∀ (as : List α) (bs : List β) (x : γ), x ∈ List.zipWith f as bs →
      ∃ a b, a ∈ as ∧ b ∈ bs ∧ x = f a b
  | [], _, x, hx => by simp at hx
  | _ :: _, [], x, hx => by simp at hx
  | a :: as, b :: bs, x, hx => by
    rw [List.zipWith_cons_cons, List.mem_cons] at hx
    cases hx with
    | inl h => exact ⟨a, b, List.mem_cons_self a as, List.mem_cons_self b bs, h⟩
    | inr h =>
      obtain ⟨a', b', ha', hb', hx'⟩ := mem_zipWith_decomp f as bs x h
      exact ⟨a', b', List.mem_cons_of_mem a ha', List.mem_cons_of_mem b hb', hx'⟩

lemma rollingMean_all_none (w : ℕ) (xs : List ℚ) (h : xs.length < w) :
    rollingMean w xs = List.replicate xs.length none := by
  rw [List.eq_replicate_iff]
  refine ⟨rollingMean_length w xs, ?_⟩
  intro o ho
  rw [rollingMean] at ho
  obtain ⟨i, hi, hio⟩ := List.mem_map.mp ho
  rw [List.mem_range] at hi
  rw [← hio, if_pos (by omega)]

lemma rollingVariance_all_none (w : ℕ) (xs : List ℚ) (h : xs.length < w) :
    rollingVariance w xs = List.replicate xs.length none := by
  rw [List.eq_replicate_iff]
  refine ⟨rollingVariance_length w xs, ?_⟩
  intro o ho
  rw [rollingVariance] at ho
  obtain ⟨i, hi, hio⟩ := List.mem_map.mp ho
  rw [List.mem_range] at hi
  rw [← hio, if_pos (by omega)]

lemma bb_band_all_none (sign : ℝ) (xs : List ℚ) (bs : List (Option ℝ)) (h : xs.length < 20)
    (hb : bs.length = xs.length) :
    List.zipWith (bbCombine sign) (rollingMean 20 xs) bs =
      List.replicate xs.length none := by
  rw [List.eq_replicate_iff]
  constructor
  · rw [List.length_zipWith, rollingMean_length, hb, min_self]
  · intro o ho
    obtain ⟨a, b, ha, _, ho'⟩ := mem_zipWith_decomp (bbCombine sign) _ _ o ho
    rw [rollingMean_all_none 20 xs h] at ha
    rw [List.eq_of_mem_replicate ha] at ho'
    rw [ho']
    rfl

lemma rsi_all_nan_of_short (closes : List ℚ) (h : closes.length < 14) :
    rsiColumn closes = List.replicate closes.length PF.nan := by
  have hg : avgGain closes = List.replicate closes.length none := by
    rw [avgGain, rollingMean_all_none 14 _ (by rw [gains_length, diff_length]; omega),
      gains_length, diff_length]
  have hrs : rsColumn closes = List.replicate closes.length PF.nan := by
    rw [List.eq_replicate_iff]
    constructor
    · exact rsColumn_length closes
    · intro r hr
      obtain ⟨a, b, ha, _, hr'⟩ := mem_zipWith_decomp cellDiv _ _ r hr
      rw [hg] at ha
      rw [List.eq_of_mem_replicate ha] at hr'
      rw [hr']
      rfl
  rw [rsiColumn, hrs, List.map_replicate]
  rfl

/-- C5 (amended): every window-based column of
`calculate_technical_indicators` is the NaN marker at every position when
the series is shorter than its window (20 for SMA_20, the Bollinger
columns and Volume_SMA; 50 and 200 for the longer SMAs; 14 for RSI); and
on the spec's concrete 20-bar series the SMA_20 column is defined only at
the last position, where it equals the arithmetic mean of the 20 closes —
which is `147/10 = 14.7`, not the claimed `14.95`. -/
theorem short_series_undefined (df : Bars)
    (hvol : df.volume.length = df.close_price.length) :
    (df.close_price.length < 20 →
      (calculate_technical_indicators df).SMA_20 =
        List.replicate df.close_price.length none ∧
      (calculate_technical_indicators df).BB_Middle =
        List.replicate df.close_price.length none ∧
      (calculate_technical_indicators df).BB_Upper =
        List.replicate df.close_price.length none ∧
      (calculate_technical_indicators df).BB_Lower =
        List.replicate df.close_price.length none ∧
      (calculate_technical_indicators df).Volume_SMA =
        List.replicate df.close_price.length none) ∧
    (df.close_price.length < 50 →
      (calculate_technical_indicators df).SMA_50 =
        List.replicate df.close_price.length none) ∧
    (df.close_price.length < 200 →
      (calculate_technical_indicators df).SMA_200 =
        List.replicate df.close_price.length none) ∧
    (df.close_price.length < 14 →
      (calculate_technical_indicators df).RSI =
        List.replicate df.close_price.length PF.nan) ∧
    (calculate_technical_indicators (mkBars demoCloses)).SMA_20 =
      List.replicate 19 none ++ [some (147 / 10)] := by
  refine ⟨?_, ?_, ?_, ?_, ?_⟩
  · intro h
    refine ⟨rollingMean_all_none 20 _ h, rollingMean_all_none 20 _ h,
      bb_band_all_none 1 _ _ h (bbStd_length _),
      bb_band_all_none (-1) _ _ h (bbStd_length _), ?_⟩
    show rollingMean 20 df.volume = _
    rw [rollingMean_all_none 20 _ (by omega), hvol]
  · exact fun h => rollingMean_all_none 50 _ h
  · exact fun h => rollingMean_all_none 200 _ h
  · exact fun h => rsi_all_nan_of_short _ h
  · have hrep : List.replicate 19 (none : Option ℚ) ++ [some ((147 : ℚ) / 10)] =
        [none, none, none, none, none, none, none, none, none, none, none, none,
         none, none, none, none, none, none, none, some ((147 : ℚ) / 10)] := rfl
    rw [hrep]
    show rollingMean 20 demoCloses = _
    norm_num [rollingMean, demoCloses, List.range_succ]

/-- C5 witness: at a one-bar frame every window falls short, so SMA_20 and
RSI are single-entry NaN columns. -/
theorem short_series_undefined_witness :
    (calculate_technical_indicators (mkBars [100])).SMA_20 = List.replicate 1 none ∧
    (calculate_technical_indicators (mkBars [100])).RSI = List.replicate 1 PF.nan :=
  ⟨((short_series_undefined (mkBars [100]) rfl).1 (by decide)).1,
   (short_series_undefined (mkBars [100]) rfl).2.2.2.1 (by decide)⟩

/-- C5 counterexample: on the spec's 20-bar series the single defined
SMA_20 value is `147/10 = 14.7`, not `14.95` (and `14.95` is not the mean
of those 20 closes). -/
theorem sma20_demo_cex :
    (calculate_technical_indicators (mkBars demoCloses)).SMA_20[19]? =
      some (some (147 / 10)) ∧
    (calculate_technical_indicators (mkBars demoCloses)).SMA_20[19]? ≠
      some (some (1495 / 100)) := by
  have h : (calculate_technical_indicators (mkBars demoCloses)).SMA_20[19]? =
      some (some ((147 : ℚ) / 10)) := by
    norm_num [calculate_technical_indicators, mkBars, rollingMean, demoCloses,
      List.range_succ]
  refine ⟨h, ?_⟩
  rw [h]
  intro hbad
  have : ((147 : ℚ) / 10) = 1495 / 100 := by
    have h1 := Option.some.inj hbad
    exact Option.some.inj h1
  norm_num at this

/-! ## C6: the Sharpe ratio and its zero-stddev guard -/

lemma colVariance_nonneg (l : List (Option ℚ)) (v : ℚ) (h : colVariance l = some v) :
    0 ≤ v := by
  rw [colVariance] at h
  split at h
  · exact Option.noConfusion h
  · rw [Option.some.injEq] at h
    rw [← h]
    have hlen : 2 ≤ (l.filterMap id).length := by omega
    apply div_nonneg
    · apply List.sum_nonneg
      intro x hx
      obtain ⟨y, _, hy⟩ := List.mem_map.mp hx
      rw [← hy]
      exact sq_nonneg _
    · have : (2 : ℚ) ≤ ((l.filterMap id).length : ℚ) := by exact_mod_cast hlen
      linarith

lemma colMean_of_variance (l : List (Option ℚ)) (v : ℚ) (h : colVariance l = some v) :
    ∃ m, colMean l = some m := by
  rw [colVariance] at h
  split at h
  · exact Option.noConfusion h
  · refine ⟨(l.filterMap id).sum / ((l.filterMap id).length : ℚ), ?_⟩
    rw [colMean, if_neg (by omega)]

/-- C6: on a frame with more than one bar whose daily-return column has a
defined sample standard deviation (variance `v`), the Sharpe ratio is
exactly 0 when that standard deviation is 0 (the `if std != 0` guard — no
division is attempted), and `mean/std * sqrt 252` when it is nonzero. -/
theorem sharpe_spec (df : Bars) (h1 : 1 < df.close_price.length) (v : ℚ)
    (hv : colVariance ((calculate_returns df).Daily_Return) = some v) :
    (v = 0 → sharpe_ratio ((calculate_returns df).Daily_Return) = some 0) ∧
    (v ≠ 0 → ∃ m, colMean ((calculate_returns df).Daily_Return) = some m ∧
      sharpe_ratio ((calculate_returns df).Daily_Return) = some
        ((m : ℝ) / Real.sqrt (v : ℝ) * Real.sqrt 252)) := by
  obtain ⟨m, hm⟩ := colMean_of_variance _ v hv
  constructor
  · intro hv0
    subst hv0
    rw [sharpe_ratio]
    rw [hm, hv]
    simp
  · intro hv0
    have hvpos : 0 < v := lt_of_le_of_ne (colVariance_nonneg _ v hv) (Ne.symm hv0)
    have hsq : Real.sqrt (v : ℝ) ≠ 0 := by
      refine ne_of_gt (Real.sqrt_pos.mpr ?_)
      exact_mod_cast hvpos
    refine ⟨m, hm, ?_⟩
    rw [sharpe_ratio]
    rw [hm, hv]
    simp [hsq]

/-- C6 witness: 30 bars constant at 100 give a daily-return column whose
sample variance is 0, and the guard returns a Sharpe ratio of exactly 0. -/
theorem sharpe_spec_witness :
    colVariance ((calculate_returns (mkBars (List.replicate 30 (100 : ℚ)))).Daily_Return) =
      some 0 ∧
    sharpe_ratio ((calculate_returns (mkBars (List.replicate 30 (100 : ℚ)))).Daily_Return) =
      some 0 := by
  have hv : colVariance ((calculate_returns (mkBars (List.replicate 30 (100 : ℚ)))).Daily_Return) =
      some 0 := by
    norm_num [calculate_returns, mkBars, colVariance, pct_change, pctGo,
      List.filterMap, List.replicate]
  exact ⟨hv, (sharpe_spec (mkBars (List.replicate 30 (100 : ℚ))) (by decide) 0 hv).1 rfl⟩

/-! ## C7: maximum drawdown -/

lemma foldl_min_le_init : ∀ (l : List ℚ) (a : ℚ), l.foldl min a ≤ a
  | [], a => le_refl a
  | x :: xs, a => le_trans (foldl_min_le_init xs (min a x)) (min_le_left a x)

lemma foldl_min_zero_replicate : ∀ n : ℕ, (List.replicate n (0 : ℚ)).foldl min 0 = 0
  | 0 => rfl
  | n + 1 => by
    rw [List.replicate_succ, List.foldl_cons, min_self]
    exact foldl_min_zero_replicate n

lemma chain_drawdown_zero : ∀ (xs : List ℚ) (m : ℚ), 0 < m → List.Chain (· ≤ ·) m xs →
    List.zipWith (fun c mm => c / mm - 1) xs (cummaxGo m xs) =
      List.replicate xs.length (0 : ℚ)
  | [], _, _, _ => rfl
  | x :: xs, m, hm, hchain => by
    rw [List.chain_cons] at hchain
    have hmx : max m x = x := max_eq_right hchain.1
    have hx : 0 < x := lt_of_lt_of_le hm hchain.1
    rw [cummaxGo, hmx, List.zipWith_cons_cons, div_self hx.ne', sub_self,
      List.length_cons, List.replicate_succ,
      chain_drawdown_zero xs x hx hchain.2]

/-- C7: for a non-empty series of positive closes, the maximum drawdown
`((close / close.cummax()) - 1).min()` is defined and at most 0, and it is
exactly 0 whenever the close series is non-decreasing. -/
theorem max_drawdown_spec (closes : List ℚ) (hne : closes ≠ [])
    (hpos : ∀ c ∈ closes, 0 < c) :
    (∃ d, max_drawdown closes = some d ∧ d ≤ 0) ∧
    (List.Chain' (· ≤ ·) closes → max_drawdown closes = some 0) := by
  obtain ⟨c, rest, hcr⟩ : ∃ c rest, closes = c :: rest := by
    cases h : closes with
    | nil => exact absurd h hne
    | cons c rest => exact ⟨c, rest, rfl⟩
  subst hcr
  have hc : 0 < c := hpos c (List.mem_cons_self c rest)
  have hhead : c / c - 1 = 0 := by rw [div_self hc.ne', sub_self]
  have hdd : drawdownCol (c :: rest) =
      (0 : ℚ) :: List.zipWith (fun x mm => x / mm - 1) rest (cummaxGo c rest) := by
    rw [drawdownCol, cummax, List.zipWith_cons_cons, hhead]
  constructor
  · refine ⟨(List.zipWith (fun x mm => x / mm - 1) rest (cummaxGo c rest)).foldl min 0,
      ?_, ?_⟩
    · rw [max_drawdown, hdd]
      rfl
    · exact foldl_min_le_init _ 0
  · intro hchain
    have hzip := chain_drawdown_zero rest c hc hchain
    rw [max_drawdown, hdd, hzip]
    show some ((List.replicate rest.length (0 : ℚ)).foldl min 0) = some 0
    rw [foldl_min_zero_replicate]

/-- C7 witness: the rising series `[1, 2, 3]` has a defined, non-positive
maximum drawdown, and by monotonicity it is exactly 0. -/
theorem max_drawdown_spec_witness :
    (∃ d, max_drawdown [1, 2, 3] = some d ∧ d ≤ 0) ∧ max_drawdown [1, 2, 3] = some 0 :=
  ⟨(max_drawdown_spec [1, 2, 3] (by decide) (by decide)).1,
   (max_drawdown_spec [1, 2, 3] (by decide) (by decide)).2
     (by norm_num [List.chain'_cons])⟩

/-! ## C10: RSI of a constant series is NaN everywhere -/

lemma diffGo_const (c : ℚ) : ∀ m : ℕ,
    diffGo c (List.replicate m c) = List.replicate m (some (0 : ℚ))
  | 0 => rfl
  | m + 1 => by
    rw [List.replicate_succ, diffGo, sub_self, diffGo_const c m, ← List.replicate_succ]

lemma gains_const_zero (m : ℕ) :
    gains (none :: List.replicate m (some (0 : ℚ))) = List.replicate (m + 1) (0 : ℚ) := by
  rw [gains, List.map_cons, List.map_replicate, List.replicate_succ]
  norm_num

lemma losses_const_zero (m : ℕ) :
    losses (none :: List.replicate m (some (0 : ℚ))) = List.replicate (m + 1) (0 : ℚ) := by
  rw [losses, List.map_cons, List.map_replicate, List.replicate_succ]
  norm_num

lemma rollingMean_replicate_zero (n i : ℕ) (hi : i < n) :
    (rollingMean 14 (List.replicate n (0 : ℚ)))[i]? =
      some (if i + 1 < 14 then none else some (0 : ℚ)) := by
  rw [rollingMean, List.getElem?_map, List.getElem?_range (by simpa using hi)]
  rw [Option.map_some']
  congr 1
  split
  · rfl
  · rw [List.drop_replicate, List.take_replicate, List.sum_replicate, smul_zero, zero_div]

/-- C10: on a series of at least 15 bars with a constant close, every
price delta is 0, so the 14-bar average gain and loss are both exactly 0
wherever defined, the ratio is the NaN of `0/0`, and the RSI column is the
NaN marker at every position — never the finite values 0, 50 or 100. -/
theorem rsi_const_undefined (df : Bars) (n : ℕ) (c : ℚ) (i : ℕ)
    (hn : 15 ≤ n) (hc : df.close_price = List.replicate n c) (hi : i < n) :
    (calculate_technical_indicators df).RSI[i]? = some PF.nan := by
  show (rsiColumn df.close_price)[i]? = some PF.nan
  rw [hc]
  obtain ⟨m, rfl⟩ : ∃ m, n = m + 1 := ⟨n - 1, by omega⟩
  have hdiff : diff (List.replicate (m + 1) c) = none :: List.replicate m (some (0 : ℚ)) := by
    rw [List.replicate_succ, diff, diffGo_const]
  have hg : gains (diff (List.replicate (m + 1) c)) = List.replicate (m + 1) (0 : ℚ) := by
    rw [hdiff]; exact gains_const_zero m
  have hl : losses (diff (List.replicate (m + 1) c)) = List.replicate (m + 1) (0 : ℚ) := by
    rw [hdiff]; exact losses_const_zero m
  rw [rsiColumn, List.getElem?_map, rsColumn, avgGain, avgLoss, hg, hl,
    List.getElem?_zipWith, rollingMean_replicate_zero (m + 1) i hi]
  by_cases h14 : i + 1 < 14
  · simp [h14, cellDiv, PF.sub, PF.add, PF.div, PF.neg]
  · simp [h14, cellDiv, PF.sub, PF.add, PF.div, PF.neg]

/-- C10 witness: 15 bars constant at 100, position 7: the RSI cell is the
NaN marker. -/
theorem rsi_const_undefined_witness :
    (calculate_technical_indicators (mkBars (List.replicate 15 (100 : ℚ)))).RSI[7]? =
      some PF.nan :=
  rsi_const_undefined (mkBars (List.replicate 15 (100 : ℚ))) 15 100 7
    (by decide) rfl (by decide)

end StockDashboard
